import Mathlib

/-!
Verification of the `sure_petcare::login` module: the `Request` value type,
the `RequestBuilder`, and the `Response` value type, together with their
serde_json serialization and deserialization behaviour.

The JSON data model (`Json`), the renderer (`Json.render`, matching
serde_json's output format including its string escaping) and the
field-by-field deserializers (matching the code generated by
serde's `derive(Deserialize)`: unknown keys ignored, duplicate fields
rejected, missing fields reported in declaration order, non-string values
rejected) are shallow embeddings of the Rust source in `src/login.rs`.
-/

/-- A JSON value, as parsed or produced by serde_json. -/
inductive Json : Type
  | null : Json
  | bool : Bool → Json
  | num : Int → Json
  | str : String → Json
  | arr : List Json → Json
  | obj : List (String × Json) → Json

/-- Whether a JSON value is a string. -/
def Json.isStr : Json → Bool
  | .str _ => true
  | _ => false

/-- One lowercase hex digit, as used by serde_json's escape table. -/
def hexDigit (n : Nat) : String :=
  String.singleton (Char.ofNat (if n < 10 then 48 + n else 87 + n))

/-- serde_json's escaping of a single character inside a JSON string:
quote and backslash get a backslash escape, control characters below 0x20
get their short escape or a \u00XX escape, everything else is verbatim. -/
def escapeChar (c : Char) : String :=
  if c = Char.ofNat 34 then "\\\""
  else if c = Char.ofNat 92 then "\\\\"
  else if c.toNat < 32 then
    if c = Char.ofNat 8 then "\\b"
    else if c = Char.ofNat 9 then "\\t"
    else if c = Char.ofNat 10 then "\\n"
    else if c = Char.ofNat 12 then "\\f"
    else if c = Char.ofNat 13 then "\\r"
    else "\\u00" ++ hexDigit (c.toNat / 16) ++ hexDigit (c.toNat % 16)
  else String.singleton c

/-- serde_json's escaping of the contents of a JSON string. -/
def escapeString (s : String) : String :=
  s.data.foldl (fun acc c => acc ++ escapeChar c) ""

mutual

/-- Render a JSON value to its compact serde_json text form. -/
def Json.render : Json → String
  | .null => "null"
  | .bool b => if b then "true" else "false"
  | .num n => toString n
  | .str s => "\"" ++ escapeString s ++ "\""
  | .arr vs => "[" ++ Json.renderElems vs ++ "]"
  | .obj kvs => "\x7b" ++ Json.renderMembers kvs ++ "\x7d"

/-- Render the comma-separated elements of a JSON array. -/
def Json.renderElems : List Json → String
  | [] => ""
  | [v] => Json.render v
  | v :: rest => Json.render v ++ "," ++ Json.renderElems rest

/-- Render the comma-separated members of a JSON object. -/
def Json.renderMembers : List (String × Json) → String
  | [] => ""
  | [(k, v)] => "\"" ++ escapeString k ++ "\":" ++ Json.render v
  | (k, v) :: rest =>
      "\"" ++ escapeString k ++ "\":" ++ Json.render v ++ "," ++ Json.renderMembers rest

end

/-- Deserialization errors surfaced by serde_json. -/
inductive DeserError : Type
  | missingField (field : String)
  | duplicateField (field : String)
  | invalidType (expected : String)
  | invalidLength (len : Nat)
deriving Repr, DecidableEq

/-- The login `Request` struct of `src/login.rs`: three string fields
(`Cow` borrows erased to their string content). -/
structure Request : Type where
  email_address : String
  password : String
  device_id : String
deriving Repr, DecidableEq

/-- `derive(Serialize)` for `Request`: an object with the three keys in
field-declaration order, each field serialized as a JSON string. -/
def Request.serialize (r : Request) : Json :=
  .obj [("email_address", .str r.email_address),
        ("password", .str r.password),
        ("device_id", .str r.device_id)]

/-- Serialization of a single string field; for a string this step of the
derived serializer always succeeds. -/
def serializeStrField (s : String) : Except String Json :=
  .ok (.str s)

/-- `serde_json::to_string(&Request)`: chains the three fallible field
serialization steps and renders the resulting value. -/
def Request.to_string (r : Request) : Except String String := do
  let e ← serializeStrField r.email_address
  let p ← serializeStrField r.password
  let d ← serializeStrField r.device_id
  pure (Json.render (.obj [("email_address", e), ("password", p), ("device_id", d)]))

/-- One step of `derive(Deserialize)`'s map visitor for a string field:
a second occurrence of the key is a duplicate-field error, a non-string
value is a type error, otherwise the field slot is filled. -/
def takeStrField (field : String) (acc : Option String) (v : Json) :
    Except DeserError (Option String) :=
  match acc with
  | some _ => .error (.duplicateField field)
  | none =>
    match v with
    | .str s => .ok (some s)
    | _ => .error (.invalidType "a string")

/-- The map visitor of `derive(Deserialize)` for `Request`: walk the
object's members, fill the three field slots, ignore unknown keys, and at
the end report the first missing field in declaration order. -/
def Request.deserFields :
    List (String × Json) → Option String → Option String → Option String →
    Except DeserError Request
  | [], fe, fp, fd =>
    match fe with
    | none => .error (.missingField "email_address")
    | some e =>
      match fp with
      | none => .error (.missingField "password")
      | some p =>
        match fd with
        | none => .error (.missingField "device_id")
        | some d => .ok ⟨e, p, d⟩
  | (k, v) :: rest, fe, fp, fd =>
    if k = "email_address" then
      match takeStrField "email_address" fe v with
      | .error err => .error err
      | .ok fe2 => Request.deserFields rest fe2 fp fd
    else if k = "password" then
      match takeStrField "password" fp v with
      | .error err => .error err
      | .ok fp2 => Request.deserFields rest fe fp2 fd
    else if k = "device_id" then
      match takeStrField "device_id" fd v with
      | .error err => .error err
      | .ok fd2 => Request.deserFields rest fe fp fd2
    else Request.deserFields rest fe fp fd

/-- The seq visitor of `derive(Deserialize)` for `Request` (serde_json also
accepts a JSON array for a derived struct): three string elements in field
order, nothing more, nothing less. -/
def Request.deserSeq : List Json → Except DeserError Request
  | [] => .error (.invalidLength 0)
  | v1 :: rest1 =>
    match v1 with
    | .str e =>
      match rest1 with
      | [] => .error (.invalidLength 1)
      | v2 :: rest2 =>
        match v2 with
        | .str p =>
          match rest2 with
          | [] => .error (.invalidLength 2)
          | v3 :: rest3 =>
            match v3 with
            | .str d =>
              match rest3 with
              | [] => .ok ⟨e, p, d⟩
              | _ => .error (.invalidType "end of array")
            | _ => .error (.invalidType "a string")
        | _ => .error (.invalidType "a string")
    | _ => .error (.invalidType "a string")

/-- `serde_json::from_value` into `Request`: a JSON object goes through the
map visitor, a JSON array through the seq visitor, anything else is a type
error. -/
def Request.deserialize : Json → Except DeserError Request
  | .obj kvs => Request.deserFields kvs none none none
  | .arr vs => Request.deserSeq vs
  | _ => .error (.invalidType "struct Request")

/-- The `RequestBuilder` struct of `src/login.rs`: the same three string
slots, mutated in place by the setters. -/
structure RequestBuilder : Type where
  email_address : String
  password : String
  device_id : String
deriving Repr, DecidableEq

/-- `RequestBuilder::new()`: `RequestBuilder::default()`, all fields the
empty string. -/
def RequestBuilder.new : RequestBuilder :=
  ⟨"", "", ""⟩

/-- `with_email_address`: overwrite the email slot, return the builder. -/
def RequestBuilder.with_email_address (b : RequestBuilder) (v : String) : RequestBuilder :=
  { b with email_address := v }

/-- `with_password`: overwrite the password slot, return the builder. -/
def RequestBuilder.with_password (b : RequestBuilder) (v : String) : RequestBuilder :=
  { b with password := v }

/-- `with_device_id`: overwrite the device id slot, return the builder. -/
def RequestBuilder.with_device_id (b : RequestBuilder) (v : String) : RequestBuilder :=
  { b with device_id := v }

/-- `build(&self)`: copy the three slots into a fresh `Request`. -/
def RequestBuilder.build (b : RequestBuilder) : Request :=
  ⟨b.email_address, b.password, b.device_id⟩

/-- `build(&self)` as a state transformer: returns the built `Request`
together with the builder state after the call (a `&self` method cannot
mutate the builder, so it passes the state through). -/
def RequestBuilder.buildStep (b : RequestBuilder) : Request × RequestBuilder :=
  (⟨b.email_address, b.password, b.device_id⟩, b)

/-- The chained construction of the `should_build_chain` test. -/
def buildChained (a b c : String) : Request :=
  (((RequestBuilder.new.with_email_address a).with_password b).with_device_id c).build

/-- The stepwise construction of the `should_build_parts` test: three
separate setter statements on a fresh builder, then `build()`. -/
def buildStepwise (a b c : String) : Request :=
  let builder := RequestBuilder.new
  let builder := builder.with_email_address a
  let builder := builder.with_password b
  let builder := builder.with_device_id c
  builder.build

/-- The login `Response` struct of `src/login.rs`: one string field. -/
structure Response : Type where
  token : String
deriving Repr, DecidableEq

/-- `Response::access_token(self)`: returns the token field. -/
def Response.access_token (r : Response) : String :=
  r.token

/-- `derive(Serialize)` for `Response`. -/
def Response.serialize (r : Response) : Json :=
  .obj [("token", .str r.token)]

/-- `serde_json::to_string(&Response)`. -/
def Response.to_string (r : Response) : Except String String := do
  let t ← serializeStrField r.token
  pure (Json.render (.obj [("token", t)]))

/-- The map visitor of `derive(Deserialize)` for `Response`. -/
def Response.deserFields : List (String × Json) → Option String → Except DeserError Response
  | [], ft =>
    match ft with
    | none => .error (.missingField "token")
    | some t => .ok ⟨t⟩
  | (k, v) :: rest, ft =>
    if k = "token" then
      match takeStrField "token" ft v with
      | .error err => .error err
      | .ok ft2 => Response.deserFields rest ft2
    else Response.deserFields rest ft

/-- The seq visitor of `derive(Deserialize)` for `Response`. -/
def Response.deserSeq : List Json → Except DeserError Response
  | [] => .error (.invalidLength 0)
  | v1 :: rest1 =>
    match v1 with
    | .str t =>
      match rest1 with
      | [] => .ok ⟨t⟩
      | _ => .error (.invalidType "end of array")
    | _ => .error (.invalidType "a string")

/-- `serde_json::from_value` into `Response`. -/
def Response.deserialize : Json → Except DeserError Response
  | .obj kvs => Response.deserFields kvs none
  | .arr vs => Response.deserSeq vs
  | _ => .error (.invalidType "struct Response")

/-- The values carried by the entries of an object member list whose key is
`key`, in order of occurrence. -/
def entriesFor (key : String) : List (String × Json) → List Json
  | [] => []
  | (k, v) :: rest =>
    if k = key then v :: entriesFor key rest else entriesFor key rest

/-- Invariant linking a visitor field slot to the remaining member list:
either the slot is still empty and exactly one entry with this key, holding
the string `val`, is still to come, or the slot already holds `val` and no
entry with this key remains. -/
def FieldPending (key val : String) (acc : Option String) (l : List (String × Json)) : Prop :=
  (acc = none ∧ entriesFor key l = [Json.str val]) ∨
  (acc = some val ∧ entriesFor key l = [])

/-- C1: serializing any `Request` yields an object with exactly the keys
`email_address`, `password`, `device_id` in that order, each mapped to the
field's string verbatim; the concrete example renders to exactly the
expected JSON text. -/
theorem request_serialize_shape :
    (∀ e p d : String, Request.serialize ⟨e, p, d⟩ =
      Json.obj [("email_address", .str e), ("password", .str p), ("device_id", .str d)]) ∧
    Json.render (Request.serialize ⟨"email@example.com", "qwerty123", "xxx-xxx-xxx-xxx"⟩) =
      "\x7b\"email_address\":\"email@example.com\",\"password\":\"qwerty123\",\"device_id\":\"xxx-xxx-xxx-xxx\"\x7d" := by
  exact ⟨fun e p d => rfl, by rfl⟩

/-- C2: deserializing the serialization of any `Request` succeeds and
returns the original value. -/
theorem request_roundtrip (e p d : String) :
    Request.deserialize (Request.serialize ⟨e, p, d⟩) = .ok ⟨e, p, d⟩ := by
  rfl

/-- C4: deserializing a `token` object succeeds and `access_token` returns
that token; deserializing the empty object fails with a missing-field
deserialization error. -/
theorem response_token_extraction :
    (∃ r : Response, Response.deserialize (Json.obj [("token", Json.str "abc123")]) = .ok r ∧
      r.access_token = "abc123") ∧
    Response.deserialize (Json.obj []) = .error (.missingField "token") := by
  exact ⟨⟨⟨"abc123"⟩, rfl, rfl⟩, rfl⟩

/-- C5: the chained build of `should_build_chain` and the stepwise build of
`should_build_parts` produce structurally equal requests for all inputs. -/
theorem builder_chain_eq_parts (a b c : String) :
    buildChained a b c = buildStepwise a b c := by
  rfl

/-- C6: `build()` leaves the builder's state unchanged, and two builds on
the same builder without intervening mutation yield equal requests. -/
theorem build_preserves_builder (b : RequestBuilder) :
    b.buildStep.2 = b ∧ b.buildStep.1 = b.buildStep.2.buildStep.1 := by
  exact ⟨rfl, rfl⟩

/-- C7: a fresh builder with no setters invoked builds the all-empty
request, which renders to the all-empty JSON object text. -/
theorem empty_builder_builds_empty :
    RequestBuilder.new.build = ⟨"", "", ""⟩ ∧
    Json.render (Request.serialize RequestBuilder.new.build) =
      "\x7b\"email_address\":\"\",\"password\":\"\",\"device_id\":\"\"\x7d" := by
  exact ⟨rfl, by rfl⟩

/-- C9: serialization of any fully constructed `Request` or `Response`
returns a success result, never an error. -/
theorem serialization_never_fails (r : Request) (s : Response) :
    (Request.to_string r).isOk = true ∧ (Response.to_string s).isOk = true := by
  exact ⟨rfl, rfl⟩

/-- C10: `Request` deserialization is insensitive to the order of the three
keys: all six key orders yield the same request as the canonical order. -/
theorem request_deserialize_key_order (e p d : String) :
    Request.deserialize (Json.obj [("email_address", Json.str e), ("password", Json.str p),
      ("device_id", Json.str d)]) = .ok ⟨e, p, d⟩ ∧
    Request.deserialize (Json.obj [("email_address", Json.str e), ("device_id", Json.str d),
      ("password", Json.str p)]) = .ok ⟨e, p, d⟩ ∧
    Request.deserialize (Json.obj [("password", Json.str p), ("email_address", Json.str e),
      ("device_id", Json.str d)]) = .ok ⟨e, p, d⟩ ∧
    Request.deserialize (Json.obj [("password", Json.str p), ("device_id", Json.str d),
      ("email_address", Json.str e)]) = .ok ⟨e, p, d⟩ ∧
    Request.deserialize (Json.obj [("device_id", Json.str d), ("email_address", Json.str e),
      ("password", Json.str p)]) = .ok ⟨e, p, d⟩ ∧
    Request.deserialize (Json.obj [("device_id", Json.str d), ("password", Json.str p),
      ("email_address", Json.str e)]) = .ok ⟨e, p, d⟩ := by
  exact ⟨rfl, rfl, rfl, rfl, rfl, rfl⟩

/-- Helper for C3: if no member carries the key `email_address` and its
slot is empty, the map visitor cannot succeed. -/
theorem deserFields_missing_email :
    ∀ (l : List (String × Json)) (fp fd : Option String),
      (∀ kv ∈ l, kv.1 ≠ "email_address") →
      (Request.deserFields l none fp fd).isOk = false := by
  intro l
  induction l with
  | nil => intro fp fd _; cases fp <;> cases fd <;> rfl
  | cons hd tl ih =>
    intro fp fd h
    obtain ⟨k, v⟩ := hd
    have hk : ¬ k = "email_address" := h (k, v) (List.mem_cons_self _ _)
    have htl : ∀ kv ∈ tl, kv.1 ≠ "email_address" :=
      fun kv hkv => h kv (List.mem_cons_of_mem _ hkv)
    simp only [Request.deserFields, if_neg hk]
    by_cases hkp : k = "password"
    · simp only [if_pos hkp]
      cases fp with
      | some s => rfl
      | none =>
        cases v <;> try rfl
        rename_i s
        exact ih (some s) fd htl
    · simp only [if_neg hkp]
      by_cases hkd : k = "device_id"
      · simp only [if_pos hkd]
        cases fd with
        | some s => rfl
        | none =>
          cases v <;> try rfl
          rename_i s
          exact ih fp (some s) htl
      · simp only [if_neg hkd]
        exact ih fp fd htl

/-- Helper for C3: if no member carries the key `password` and its slot is
empty, the map visitor cannot succeed. -/
theorem deserFields_missing_password :
    ∀ (l : List (String × Json)) (fe fd : Option String),
      (∀ kv ∈ l, kv.1 ≠ "password") →
      (Request.deserFields l fe none fd).isOk = false := by
  intro l
  induction l with
  | nil => intro fe fd _; cases fe <;> cases fd <;> rfl
  | cons hd tl ih =>
    intro fe fd h
    obtain ⟨k, v⟩ := hd
    have hk : ¬ k = "password" := h (k, v) (List.mem_cons_self _ _)
    have htl : ∀ kv ∈ tl, kv.1 ≠ "password" :=
      fun kv hkv => h kv (List.mem_cons_of_mem _ hkv)
    simp only [Request.deserFields]
    by_cases hke : k = "email_address"
    · simp only [if_pos hke]
      cases fe with
      | some s => rfl
      | none =>
        cases v <;> try rfl
        rename_i s
        exact ih (some s) fd htl
    · simp only [if_neg hke, if_neg hk]
      by_cases hkd : k = "device_id"
      · simp only [if_pos hkd]
        cases fd with
        | some s => rfl
        | none =>
          cases v <;> try rfl
          rename_i s
          exact ih fe (some s) htl
      · simp only [if_neg hkd]
        exact ih fe fd htl

/-- Helper for C3: if no member carries the key `device_id` and its slot is
empty, the map visitor cannot succeed. -/
theorem deserFields_missing_device_id :
    ∀ (l : List (String × Json)) (fe fp : Option String),
      (∀ kv ∈ l, kv.1 ≠ "device_id") →
      (Request.deserFields l fe fp none).isOk = false := by
  intro l
  induction l with
  | nil => intro fe fp _; cases fe <;> cases fp <;> rfl
  | cons hd tl ih =>
    intro fe fp h
    obtain ⟨k, v⟩ := hd
    have hk : ¬ k = "device_id" := h (k, v) (List.mem_cons_self _ _)
    have htl : ∀ kv ∈ tl, kv.1 ≠ "device_id" :=
      fun kv hkv => h kv (List.mem_cons_of_mem _ hkv)
    simp only [Request.deserFields]
    by_cases hke : k = "email_address"
    · simp only [if_pos hke]
      cases fe with
      | some s => rfl
      | none =>
        cases v <;> try rfl
        rename_i s
        exact ih (some s) fp htl
    · simp only [if_neg hke]
      by_cases hkp : k = "password"
      · simp only [if_pos hkp]
        cases fp with
        | some s => rfl
        | none =>
          cases v <;> try rfl
          rename_i s
          exact ih fe (some s) htl
      · simp only [if_neg hkp, if_neg hk]
        exact ih fe fp htl

/-- Helper for C3: if some member carries one of the three required keys
with a non-string value, the map visitor cannot succeed, whatever the
current slot states are. -/
theorem deserFields_bad_value :
    ∀ (l : List (String × Json)) (fe fp fd : Option String),
      (∃ kv ∈ l, (kv.1 = "email_address" ∨ kv.1 = "password" ∨ kv.1 = "device_id") ∧
        kv.2.isStr = false) →
      (Request.deserFields l fe fp fd).isOk = false := by
  intro l
  induction l with
  | nil => intro fe fp fd h; simp at h
  | cons hd tl ih =>
    intro fe fp fd h
    obtain ⟨k, v⟩ := hd
    have hstep : (∃ kv ∈ tl, (kv.1 = "email_address" ∨ kv.1 = "password" ∨
        kv.1 = "device_id") ∧ kv.2.isStr = false) ∨
        ((k = "email_address" ∨ k = "password" ∨ k = "device_id") ∧ v.isStr = false) := by
      rcases h with ⟨kv, hmem, hreq, hbad⟩
      rcases List.mem_cons.mp hmem with heq | hmtl
      · subst heq; exact Or.inr ⟨hreq, hbad⟩
      · exact Or.inl ⟨kv, hmtl, hreq, hbad⟩
    simp only [Request.deserFields]
    by_cases hke : k = "email_address"
    · simp only [if_pos hke]
      cases fe with
      | some s => rfl
      | none =>
        cases v <;> try rfl
        rename_i s
        rcases hstep with htl | ⟨_, hbad⟩
        · exact ih (some s) fp fd htl
        · simp [Json.isStr] at hbad
    · simp only [if_neg hke]
      by_cases hkp : k = "password"
      · simp only [if_pos hkp]
        cases fp with
        | some s => rfl
        | none =>
          cases v <;> try rfl
          rename_i s
          rcases hstep with htl | ⟨_, hbad⟩
          · exact ih fe (some s) fd htl
          · simp [Json.isStr] at hbad
      · simp only [if_neg hkp]
        by_cases hkd : k = "device_id"
        · simp only [if_pos hkd]
          cases fd with
          | some s => rfl
          | none =>
            cases v <;> try rfl
            rename_i s
            rcases hstep with htl | ⟨_, hbad⟩
            · exact ih fe fp (some s) htl
            · simp [Json.isStr] at hbad
        · simp only [if_neg hkd]
          rcases hstep with htl | ⟨hreq, _⟩
          · exact ih fe fp fd htl
          · rcases hreq with h1 | h1 | h1 <;> [exact absurd h1 hke;
              exact absurd h1 hkp; exact absurd h1 hkd]

/-- C3: deserializing an object into a `Request` fails whenever one of the
three required keys is absent or some occurrence of a required key has a
non-string value; in particular the object with only `email_address` and
`password` fails with the missing-field error for `device_id`. -/
theorem request_deserialize_rejects :
    (∀ l : List (String × Json),
      ((∀ kv ∈ l, kv.1 ≠ "email_address") ∨ (∀ kv ∈ l, kv.1 ≠ "password") ∨
       (∀ kv ∈ l, kv.1 ≠ "device_id") ∨
       (∃ kv ∈ l, (kv.1 = "email_address" ∨ kv.1 = "password" ∨ kv.1 = "device_id") ∧
         kv.2.isStr = false)) →
      (Request.deserialize (Json.obj l)).isOk = false) ∧
    Request.deserialize (Json.obj [("email_address", Json.str "a"), ("password", Json.str "b")]) =
      .error (.missingField "device_id") := by
  constructor
  · intro l h
    rcases h with h | h | h | h
    · exact deserFields_missing_email l none none h
    · exact deserFields_missing_password l none none h
    · exact deserFields_missing_device_id l none none h
    · exact deserFields_bad_value l none none none h
  · rfl

/-- Closed instance of C3's hypothesis-bearing part at the concrete object
missing `device_id`. -/
theorem request_deserialize_rejects_witness :
    (Request.deserialize (Json.obj [("email_address", Json.str "a"),
      ("password", Json.str "b")])).isOk = false :=
  request_deserialize_rejects.1
    [("email_address", Json.str "a"), ("password", Json.str "b")]
    (Or.inr (Or.inr (Or.inl (by decide))))

/-- Helper: a member with a different key does not contribute entries. -/
theorem entriesFor_cons_ne (key k : String) (v : Json) (l : List (String × Json))
    (h : ¬ k = key) : entriesFor key ((k, v) :: l) = entriesFor key l := by
  simp only [entriesFor, if_neg h]

/-- Helper: a member with the key contributes its value first. -/
theorem entriesFor_cons_eq (key : String) (v : Json) (l : List (String × Json)) :
    entriesFor key ((key, v) :: l) = v :: entriesFor key l := by
  simp [entriesFor]

/-- Helper for C8: a pending field is unaffected by a member with another
key. -/
theorem fieldPending_cons_ne (key val k : String) (v : Json) (acc : Option String)
    (l : List (String × Json)) (h : ¬ k = key) :
    FieldPending key val acc ((k, v) :: l) → FieldPending key val acc l := by
  intro hp
  rcases hp with ⟨h1, h2⟩ | ⟨h1, h2⟩
  · exact Or.inl ⟨h1, by rwa [entriesFor_cons_ne key k v l h] at h2⟩
  · exact Or.inr ⟨h1, by rwa [entriesFor_cons_ne key k v l h] at h2⟩

/-- Helper for C8: a member carrying the pending key must be its single
string occurrence, filling the slot. -/
theorem fieldPending_cons_eq (key val : String) (v : Json) (acc : Option String)
    (l : List (String × Json)) :
    FieldPending key val acc ((key, v) :: l) →
    acc = none ∧ v = Json.str val ∧ FieldPending key val (some val) l := by
  intro hp
  rcases hp with ⟨h1, h2⟩ | ⟨h1, h2⟩
  · rw [entriesFor_cons_eq] at h2
    obtain ⟨hv, h0⟩ := List.cons_eq_cons.mp h2
    exact ⟨h1, hv, Or.inr ⟨rfl, h0⟩⟩
  · rw [entriesFor_cons_eq] at h2
    exact absurd h2 (by simp)

/-- Helper for C8: the `Request` map visitor succeeds with the pending
values once each required field occurs exactly once as a string, whatever
unknown members surround them. -/
theorem deserFields_ok_of_pending :
    ∀ (l : List (String × Json)) (e p d : String) (fe fp fd : Option String),
      FieldPending "email_address" e fe l → FieldPending "password" p fp l →
      FieldPending "device_id" d fd l →
      Request.deserFields l fe fp fd = .ok ⟨e, p, d⟩ := by
  intro l
  induction l with
  | nil =>
    intro e p d fe fp fd hE hP hD
    rcases hE with ⟨_, hbad⟩ | ⟨hfe, _⟩
    · exact absurd hbad (by simp [entriesFor])
    rcases hP with ⟨_, hbad⟩ | ⟨hfp, _⟩
    · exact absurd hbad (by simp [entriesFor])
    rcases hD with ⟨_, hbad⟩ | ⟨hfd, _⟩
    · exact absurd hbad (by simp [entriesFor])
    subst hfe; subst hfp; subst hfd
    rfl
  | cons hd tl ih =>
    intro e p d fe fp fd hE hP hD
    obtain ⟨k, v⟩ := hd
    by_cases hke : k = "email_address"
    · subst hke
      obtain ⟨hfe, hv, hE2⟩ := fieldPending_cons_eq "email_address" e v fe tl hE
      have hP2 := fieldPending_cons_ne "password" p "email_address" v fp tl (by decide) hP
      have hD2 := fieldPending_cons_ne "device_id" d "email_address" v fd tl (by decide) hD
      subst hfe; subst hv
      exact ih e p d (some e) fp fd hE2 hP2 hD2
    · by_cases hkp : k = "password"
      · subst hkp
        obtain ⟨hfp, hv, hP2⟩ := fieldPending_cons_eq "password" p v fp tl hP
        have hE2 := fieldPending_cons_ne "email_address" e "password" v fe tl (by decide) hE
        have hD2 := fieldPending_cons_ne "device_id" d "password" v fd tl (by decide) hD
        subst hfp; subst hv
        exact ih e p d fe (some p) fd hE2 hP2 hD2
      · by_cases hkd : k = "device_id"
        · subst hkd
          obtain ⟨hfd, hv, hD2⟩ := fieldPending_cons_eq "device_id" d v fd tl hD
          have hE2 := fieldPending_cons_ne "email_address" e "device_id" v fe tl (by decide) hE
          have hP2 := fieldPending_cons_ne "password" p "device_id" v fp tl (by decide) hP
          subst hfd; subst hv
          exact ih e p d fe fp (some d) hE2 hP2 hD2
        · have hE2 := fieldPending_cons_ne "email_address" e k v fe tl hke hE
          have hP2 := fieldPending_cons_ne "password" p k v fp tl hkp hP
          have hD2 := fieldPending_cons_ne "device_id" d k v fd tl hkd hD
          simp only [Request.deserFields, if_neg hke, if_neg hkp, if_neg hkd]
          exact ih e p d fe fp fd hE2 hP2 hD2

/-- Helper for C8: the `Response` map visitor, same property for its one
field. -/
theorem responseFields_ok_of_pending :
    ∀ (l : List (String × Json)) (t : String) (ft : Option String),
      FieldPending "token" t ft l → Response.deserFields l ft = .ok ⟨t⟩ := by
  intro l
  induction l with
  | nil =>
    intro t ft h
    rcases h with ⟨_, hbad⟩ | ⟨hft, _⟩
    · exact absurd hbad (by simp [entriesFor])
    subst hft; rfl
  | cons hd tl ih =>
    intro t ft h
    obtain ⟨k, v⟩ := hd
    by_cases hk : k = "token"
    · subst hk
      obtain ⟨hft, hv, h2⟩ := fieldPending_cons_eq "token" t v ft tl h
      subst hft; subst hv
      exact ih t (some t) h2
    · have h2 := fieldPending_cons_ne "token" t k v ft tl hk h
      simp only [Response.deserFields, if_neg hk]
      exact ih t ft h2

/-- C8: deserialization of `Request` and `Response` ignores unknown extra
keys: an object whose required keys each occur exactly once with the given
string values, however many other members it carries and wherever they sit,
deserializes to the same value as the object with only the required keys,
successfully. -/
theorem deserialize_ignores_unknown_keys :
    (∀ (l : List (String × Json)) (e p d : String),
      entriesFor "email_address" l = [Json.str e] →
      entriesFor "password" l = [Json.str p] →
      entriesFor "device_id" l = [Json.str d] →
      Request.deserialize (Json.obj l) =
        Request.deserialize (Json.obj [("email_address", Json.str e),
          ("password", Json.str p), ("device_id", Json.str d)]) ∧
      Request.deserialize (Json.obj l) = .ok ⟨e, p, d⟩) ∧
    (∀ (l : List (String × Json)) (t : String),
      entriesFor "token" l = [Json.str t] →
      Response.deserialize (Json.obj l) =
        Response.deserialize (Json.obj [("token", Json.str t)]) ∧
      Response.deserialize (Json.obj l) = .ok ⟨t⟩) := by
  constructor
  · intro l e p d he hp hd
    have hok : Request.deserialize (Json.obj l) = .ok ⟨e, p, d⟩ :=
      deserFields_ok_of_pending l e p d none none none (Or.inl ⟨rfl, he⟩)
        (Or.inl ⟨rfl, hp⟩) (Or.inl ⟨rfl, hd⟩)
    exact ⟨by rw [hok]; rfl, hok⟩
  · intro l t ht
    have hok : Response.deserialize (Json.obj l) = .ok ⟨t⟩ :=
      responseFields_ok_of_pending l t none (Or.inl ⟨rfl, ht⟩)
    exact ⟨by rw [hok]; rfl, hok⟩

/-- Closed instance of C8 at concrete objects carrying unknown extra
keys. -/
theorem deserialize_ignores_unknown_keys_witness :
    Request.deserialize (Json.obj [("email_address", Json.str "a"), ("extra", Json.num 7),
        ("password", Json.str "b"), ("device_id", Json.str "c"), ("more", Json.null)]) =
      .ok ⟨"a", "b", "c"⟩ ∧
    Response.deserialize (Json.obj [("token", Json.str "tok"), ("ttl", Json.num 60)]) =
      .ok ⟨"tok"⟩ :=
  ⟨(deserialize_ignores_unknown_keys.1
      [("email_address", Json.str "a"), ("extra", Json.num 7), ("password", Json.str "b"),
       ("device_id", Json.str "c"), ("more", Json.null)] "a" "b" "c" rfl rfl rfl).2,
   (deserialize_ignores_unknown_keys.2
      [("token", Json.str "tok"), ("ttl", Json.num 60)] "tok" rfl).2⟩
